import Mathlib

/-
Shallow embedding of the StudioMix audio application.

Sources embedded:
  - src/unnamed/part_001: enum AppState, interface AudioEffects, class AudioEngine
    (play, stop, applyEffects, createReverbImpulse, loadBackingTrack, loadVocalTrack).
  - src/unnamed/part_000: the App component state and its handlers
    (loop, togglePlayback, handleSeek, handleReset, handleDownload with its
    recorder.onstop callback and its auto-stop setTimeout).

Times and gain values are modelled as rationals; JS float literals (0.1, 0.6,
2.5) are taken as the exact rationals they denote in the source text.
The Web Audio ambient clock (audioContext.currentTime) is passed explicitly
as a parameter called now.  AudioParam automation commands issued by the
engine are reified as a ParamUpdate value: the platform semantics of
setTargetAtTime is the smoothed exponential approach toward the target with
the given time constant, while an assignment to .value would be an
instantaneous jump; the code decides which command is issued, so the command
constructor is what the embedding records.
-/

/-- AppState enum from src/unnamed/part_001 lines 1-7. -/
inductive AppState where
  | IDLE
  | READY_TO_RECORD
  | RECORDING
  | REVIEW
  | EXPORTING
deriving DecidableEq, Repr

/-- AudioEffects interface from src/unnamed/part_001 lines 9-15. -/
structure AudioEffects where
  volume : ℚ
  lowGain : ℚ
  midGain : ℚ
  highGain : ℚ
  reverbMix : ℚ
deriving DecidableEq, Repr

/-- An automation command issued to a Web Audio AudioParam.  setTarget models
setTargetAtTime(target, startTime, timeConstant): a smoothed exponential
approach with the given time constant.  setValue models a direct assignment
to the .value property: an instantaneous jump. -/
inductive ParamUpdate where
  | setTarget (target : ℚ) (startTime : ℚ) (timeConstant : ℚ)
  | setValue (value : ℚ)
deriving DecidableEq, Repr

/-- True exactly when the command is an instantaneous (non-smoothed) jump. -/
def ParamUpdate.isInstant : ParamUpdate → Bool
  | .setValue _ => true
  | .setTarget _ _ _ => false

/-- The batch of automation commands issued by one applyEffects call, one per
gain/filter coefficient touched by AudioEngine.applyEffects. -/
structure EffectsUpdate where
  lowEqGain : ParamUpdate
  midEqGain : ParamUpdate
  highEqGain : ParamUpdate
  reverbDryGain : ParamUpdate
  reverbWetGain : ParamUpdate
  vocalGain : ParamUpdate
deriving DecidableEq, Repr

/-- AudioEngine.applyEffects, src/unnamed/part_001 lines 167-182.  Every
coefficient is driven by setTargetAtTime(target, audioContext.currentTime,
0.1); dry = 1 - reverbMix*0.6, wet gain = reverbMix*2. -/
def applyEffectsUpdate (fx : AudioEffects) (now : ℚ) : EffectsUpdate :=
  { lowEqGain := .setTarget fx.lowGain now (1/10)
    midEqGain := .setTarget fx.midGain now (1/10)
    highEqGain := .setTarget fx.highGain now (1/10)
    reverbDryGain := .setTarget (1 - fx.reverbMix * (6/10)) now (1/10)
    reverbWetGain := .setTarget (fx.reverbMix * 2) now (1/10)
    vocalGain := .setTarget fx.volume now (1/10) }

/-- The six commands of one EffectsUpdate as a list, in source order. -/
def EffectsUpdate.commands (u : EffectsUpdate) : List ParamUpdate :=
  [u.lowEqGain, u.midEqGain, u.highEqGain, u.reverbDryGain, u.reverbWetGain, u.vocalGain]

/-- An AudioBufferSourceNode that has been created, connected and started:
its scheduled start clock instant and its start offset into the asset.
The id distinguishes distinct createBufferSource calls. -/
structure SourceHandle where
  id : ℕ
  startTime : ℚ
  offset : ℚ
deriving DecidableEq, Repr

/-- State of the AudioEngine class, src/unnamed/part_001 lines 24-206.
backingSource/vocalSource are the nullable reference fields; activeBacking
and activeVocal are the sources currently alive in the Web Audio graph for
each slot (created+connected+started and not yet stopped) - dropping the
reference without stopping would leave a source audible, which is exactly
what these lists track.  Buffers are modelled by their duration. -/
structure AudioEngine where
  backingBuffer : Option ℚ
  vocalBuffer : Option ℚ
  backingSource : Option SourceHandle
  vocalSource : Option SourceHandle
  activeBacking : List SourceHandle
  activeVocal : List SourceHandle
  nextId : ℕ
  automation : Option EffectsUpdate
deriving DecidableEq, Repr

/-- A freshly constructed AudioEngine: no buffers, no sources. -/
def AudioEngine.init : AudioEngine :=
  { backingBuffer := none, vocalBuffer := none
    backingSource := none, vocalSource := none
    activeBacking := [], activeVocal := []
    nextId := 0, automation := none }

/-- Stopping one slot: stop() + disconnect() on the referenced source removes
it from the live graph; with no reference the slot is untouched. -/
def stopSlot (ref : Option SourceHandle) (active : List SourceHandle) : List SourceHandle :=
  match ref with
  | none => active
  | some h => active.filter (fun x => x.id ≠ h.id)

/-- AudioEngine.stop, src/unnamed/part_001 lines 152-163: for each slot, if a
source reference exists it is stopped (exceptions swallowed), disconnected
and the reference nulled; with no reference the branch does nothing. -/
def AudioEngine.stop (s : AudioEngine) : AudioEngine :=
  { s with
    activeBacking := stopSlot s.backingSource s.activeBacking
    activeVocal := stopSlot s.vocalSource s.activeVocal
    backingSource := none
    vocalSource := none }

/-- AudioEngine.play, src/unnamed/part_001 lines 129-150: first this.stop(),
then this.applyEffects(effects), then startTime = audioContext.currentTime is
read once; for each slot whose buffer is loaded a fresh source is created,
connected, and started at (startTime, startTimeOffset); a slot with no buffer
is skipped. -/
def AudioEngine.play (s : AudioEngine) (now startTimeOffset : ℚ) (fx : AudioEffects) : AudioEngine :=
  let s1 := s.stop
  let s1 := { s1 with automation := some (applyEffectsUpdate fx now) }
  let s2 :=
    match s1.backingBuffer with
    | none => s1
    | some _ =>
      let h : SourceHandle := ⟨s1.nextId, now, startTimeOffset⟩
      { s1 with backingSource := some h
                activeBacking := h :: s1.activeBacking
                nextId := s1.nextId + 1 }
  match s2.vocalBuffer with
  | none => s2
  | some _ =>
    let h : SourceHandle := ⟨s2.nextId, now, startTimeOffset⟩
    { s2 with vocalSource := some h
              activeVocal := h :: s2.activeVocal
              nextId := s2.nextId + 1 }

/-- AudioEngine.applyEffects as a state transformer (records the issued
automation batch), src/unnamed/part_001 lines 167-182. -/
def AudioEngine.applyEffects (s : AudioEngine) (fx : AudioEffects) (now : ℚ) : AudioEngine :=
  { s with automation := some (applyEffectsUpdate fx now) }

/-- AudioEngine.loadBackingTrack, src/unnamed/part_001 lines 117-120: decodes
into the backing buffer and returns its duration. -/
def AudioEngine.loadBackingTrack (s : AudioEngine) (duration : ℚ) : AudioEngine × ℚ :=
  ({ s with backingBuffer := some duration }, duration)

/-- AudioEngine.loadVocalTrack, src/unnamed/part_001 lines 122-125. -/
def AudioEngine.loadVocalTrack (s : AudioEngine) (duration : ℚ) : AudioEngine :=
  { s with vocalBuffer := some duration }

/-- Engine-level operations a client can issue (play covers both a plain play
and a seek-restart, which call the same method). -/
inductive EngineOp where
  | play (now offset : ℚ) (fx : AudioEffects)
  | stop
  | loadBacking (d : ℚ)
  | loadVocal (d : ℚ)

/-- One engine operation applied to an engine state. -/
def AudioEngine.step (s : AudioEngine) : EngineOp → AudioEngine
  | .play now offset fx => s.play now offset fx
  | .stop => s.stop
  | .loadBacking d => (s.loadBackingTrack d).1
  | .loadVocal d => s.loadVocalTrack d

/-- Run a sequence of engine operations from the freshly constructed engine. -/
def runOps (ops : List EngineOp) : AudioEngine :=
  ops.foldl AudioEngine.step AudioEngine.init

/-- Engine graph invariant: each slot's live sources are exactly the one the
reference field points to (so at most one), and every live id is below
nextId (freshness). -/
def engineInv (s : AudioEngine) : Prop :=
  s.activeBacking = s.backingSource.toList ∧
  s.activeVocal = s.vocalSource.toList ∧
  (∀ h ∈ s.activeBacking, h.id < s.nextId) ∧
  (∀ h ∈ s.activeVocal, h.id < s.nextId)

instance (s : AudioEngine) : Decidable (engineInv s) := by
  unfold engineInv; infer_instance

/-- State of the App component, src/unnamed/part_000 lines 19-37: the
useState hooks and refs that the claims concern, plus the export-pipeline
observables (capture sink connection, recorder, artifact, pending auto-stop
timeout delay in seconds), and whether document.querySelector finds a
canvas (the visual-frame source availability at export time). -/
structure AppModel where
  appState : AppState
  effects : AudioEffects
  duration : ℚ
  currentTime : ℚ
  isPlaying : Bool
  startTimeRef : ℚ
  rafPending : Bool
  engine : AudioEngine
  canvasAvailable : Bool
  sinkConnected : Bool
  recorderActive : Bool
  recordersCreated : ℕ
  artifactFinalized : Bool
  pendingAutoStop : Option ℚ
deriving DecidableEq, Repr

/-- The reference-start-clock formula shared by every transport start in
src/unnamed/part_000: startTimeRef.current =
engine.getContext().currentTime - projectTime (lines 120-121 with
projectTime 0, line 153, line 162, line 221 with projectTime 0). -/
def referenceStart (now projectTime : ℚ) : ℚ := now - projectTime

/-- The animation-frame tick, src/unnamed/part_000 lines 44-57 (loop): if
playing, elapsed = engine.getContext().currentTime - startTimeRef.current;
when elapsed >= duration the tick sets isPlaying false, clamps currentTime
to duration, stops the engine, and does not reschedule itself (and the
effect cleanup cancels any pending frame); otherwise it reports elapsed and
reschedules.  When not playing the guard makes the body a no-op. -/
def loop (m : AppModel) (now : ℚ) : AppModel :=
  if m.isPlaying then
    let elapsed := now - m.startTimeRef
    if elapsed ≥ m.duration then
      { m with isPlaying := false
               currentTime := m.duration
               engine := m.engine.stop
               rafPending := false }
    else
      { m with currentTime := elapsed, rafPending := true }
  else m

/-- togglePlayback, src/unnamed/part_000 lines 145-156: pause stops the
engine and clears isPlaying (the effect cleanup cancels the pending frame);
play restarts the engine sources at the current position and sets
startTimeRef = now - currentTime. -/
def togglePlayback (m : AppModel) (now : ℚ) : AppModel :=
  if m.isPlaying then
    { m with engine := m.engine.stop, isPlaying := false, rafPending := false }
  else
    { m with engine := m.engine.play now m.currentTime m.effects
             startTimeRef := referenceStart now m.currentTime
             isPlaying := true
             rafPending := true }

/-- handleSeek, src/unnamed/part_000 lines 158-164: sets currentTime to the
target; while playing also restarts the engine sources at the new offset and
reschedules startTimeRef = now - time. -/
def handleSeek (m : AppModel) (now time : ℚ) : AppModel :=
  let m1 := { m with currentTime := time }
  if m1.isPlaying then
    { m1 with engine := m1.engine.play now time m1.effects
              startTimeRef := referenceStart now time }
  else m1

/-- handleReset, src/unnamed/part_000 lines 166-171. -/
def handleReset (m : AppModel) : AppModel :=
  { m with engine := m.engine.stop
           isPlaying := false
           rafPending := false
           currentTime := 0
           appState := AppState.READY_TO_RECORD }

/-- handleDownload, src/unnamed/part_000 lines 174-230: sets appState to
EXPORTING and stops the engine, then looks for the canvas; with no canvas it
returns early (no sink, no recorder, no playback - and appState stays
EXPORTING).  Otherwise it connects the master output to a fresh capture
sink, creates and starts a recorder over canvas+audio streams, starts
playback from 0 with startTimeRef = now, and schedules an automatic stop
after duration*1000 + 500 milliseconds of wall time. -/
def handleDownload (m : AppModel) (now : ℚ) : AppModel :=
  let m1 := { m with appState := AppState.EXPORTING, engine := m.engine.stop }
  if m1.canvasAvailable then
    { m1 with sinkConnected := true
              recorderActive := true
              recordersCreated := m1.recordersCreated + 1
              engine := m1.engine.play now 0 m1.effects
              startTimeRef := referenceStart now 0
              isPlaying := true
              rafPending := true
              pendingAutoStop := some (m1.duration + 1/2) }
  else m1

/-- recorder.onstop, src/unnamed/part_000 lines 202-216: disconnects the
capture sink from the master output, finalizes the encoded blob and
triggers its download, and sets appState back to REVIEW. -/
def recorderOnStop (m : AppModel) : AppModel :=
  { m with sinkConnected := false
           artifactFinalized := true
           appState := AppState.REVIEW }

/-- The export auto-stop, src/unnamed/part_000 lines 225-229 followed by the
recorder.onstop callback it triggers: recorder.stop(); engine.stop();
setIsPlaying(false); then onstop fires. -/
def autoStopTimeout (m : AppModel) : AppModel :=
  recorderOnStop
    { m with recorderActive := false
             engine := m.engine.stop
             isPlaying := false
             rafPending := false
             pendingAutoStop := none }

/-! ### Helper lemmas about the engine graph invariant -/

lemma stopSlot_toList (ref : Option SourceHandle) :
    stopSlot ref ref.toList = [] := by
  cases ref with
  | none => rfl
  | some h => simp [stopSlot]

lemma stop_active {s : AudioEngine} (h : engineInv s) :
    s.stop.activeBacking = [] ∧ s.stop.activeVocal = [] := by
  obtain ⟨hb, hv, -, -⟩ := h
  constructor <;> simp [AudioEngine.stop, hb, hv, stopSlot_toList]

lemma engineInv_stop {s : AudioEngine} (h : engineInv s) : engineInv s.stop := by
  obtain ⟨h1, h2⟩ := stop_active h
  exact ⟨by simp [AudioEngine.stop] at h1 ⊢; simp [h1],
         by simp [AudioEngine.stop] at h2 ⊢; simp [h2],
         by simp [h1], by simp [h2]⟩

lemma engineInv_play {s : AudioEngine} (h : engineInv s) (now off : ℚ) (fx : AudioEffects) :
    engineInv (s.play now off fx) := by
  obtain ⟨hab, hav⟩ := stop_active h
  rcases s with ⟨bb, vb, bs, vs, ab, av, n, au⟩
  simp only [AudioEngine.stop] at hab hav
  cases bb <;> cases vb <;>
    simp_all [AudioEngine.play, AudioEngine.stop, engineInv, Option.toList] <;> omega

lemma engineInv_loadBacking {s : AudioEngine} (h : engineInv s) (d : ℚ) :
    engineInv (s.loadBackingTrack d).1 := by
  obtain ⟨h1, h2, h3, h4⟩ := h
  exact ⟨h1, h2, h3, h4⟩

lemma engineInv_loadVocal {s : AudioEngine} (h : engineInv s) (d : ℚ) :
    engineInv (s.loadVocalTrack d) := by
  obtain ⟨h1, h2, h3, h4⟩ := h
  exact ⟨h1, h2, h3, h4⟩

lemma engineInv_init : engineInv AudioEngine.init := by decide

lemma engineInv_step {s : AudioEngine} (h : engineInv s) (op : EngineOp) :
    engineInv (s.step op) := by
  cases op with
  | play now off fx => exact engineInv_play h now off fx
  | stop => exact engineInv_stop h
  | loadBacking d => exact engineInv_loadBacking h d
  | loadVocal d => exact engineInv_loadVocal h d

lemma engineInv_runOps (ops : List EngineOp) : engineInv (runOps ops) := by
  unfold runOps
  have key : ∀ (l : List EngineOp) (s : AudioEngine), engineInv s →
      engineInv (l.foldl AudioEngine.step s) := by
    intro l
    induction l with
    | nil => intro s hs; exact hs
    | cons op rest ih =>
      intro s hs
      exact ih (s.step op) (engineInv_step hs op)
  exact key ops AudioEngine.init engineInv_init

/-! ### Claim theorems -/

/-- C1: for every EffectsParameters value within the documented ranges,
applyEffects sets the dry-path gain target to 1 - reverbMix*0.6 and the
wet-path gain target to reverbMix*2, and drives each of the six
gain/filter coefficients (low, mid, high EQ gain, dry gain, wet gain,
vocal volume) with a setTargetAtTime command of time constant 0.1 s (the
smoothed exponential approach), never with an instantaneous jump. -/
theorem applyEffects_smoothed_targets (fx : AudioEffects) (now : ℚ)
    (hvol : 0 ≤ fx.volume ∧ fx.volume ≤ 2)
    (hlow : -20 ≤ fx.lowGain ∧ fx.lowGain ≤ 20)
    (hmid : -20 ≤ fx.midGain ∧ fx.midGain ≤ 20)
    (hhigh : -20 ≤ fx.highGain ∧ fx.highGain ≤ 20)
    (hmix : 0 ≤ fx.reverbMix ∧ fx.reverbMix ≤ 1) :
    (applyEffectsUpdate fx now).reverbDryGain
        = .setTarget (1 - fx.reverbMix * (6/10)) now (1/10) ∧
    (applyEffectsUpdate fx now).reverbWetGain
        = .setTarget (fx.reverbMix * 2) now (1/10) ∧
    (applyEffectsUpdate fx now).lowEqGain = .setTarget fx.lowGain now (1/10) ∧
    (applyEffectsUpdate fx now).midEqGain = .setTarget fx.midGain now (1/10) ∧
    (applyEffectsUpdate fx now).highEqGain = .setTarget fx.highGain now (1/10) ∧
    (applyEffectsUpdate fx now).vocalGain = .setTarget fx.volume now (1/10) ∧
    ∀ u ∈ (applyEffectsUpdate fx now).commands,
      u.isInstant = false ∧ ∃ tgt, u = .setTarget tgt now (1/10) := by
  refine ⟨rfl, rfl, rfl, rfl, rfl, rfl, ?_⟩
  intro u hu
  simp only [EffectsUpdate.commands, applyEffectsUpdate, List.mem_cons,
    List.not_mem_nil, or_false] at hu
  rcases hu with h | h | h | h | h | h <;> subst h <;>
    exact ⟨rfl, _, rfl⟩

theorem applyEffects_smoothed_targets_witness :
    (applyEffectsUpdate ⟨1, 0, 0, 0, 1/2⟩ 3).reverbDryGain
        = .setTarget (1 - (1/2) * (6/10)) 3 (1/10) ∧
    (applyEffectsUpdate ⟨1, 0, 0, 0, 1/2⟩ 3).reverbWetGain
        = .setTarget ((1/2) * 2) 3 (1/10) :=
  ⟨(applyEffects_smoothed_targets ⟨1, 0, 0, 0, 1/2⟩ 3 (by norm_num) (by norm_num)
      (by norm_num) (by norm_num) (by norm_num)).1,
   (applyEffects_smoothed_targets ⟨1, 0, 0, 0, 1/2⟩ 3 (by norm_num) (by norm_num)
      (by norm_num) (by norm_num) (by norm_num)).2.1⟩

/-- C4: after any sequence of play/seek/stop (and load) operations run
against a fresh engine, each asset slot (backing, vocal) has at most one
live SourceHandle in the graph: play always tears the previous sources of
both slots down before creating new ones, so overlapping sources for one
slot never coexist. -/
theorem at_most_one_source_per_slot (ops : List EngineOp) :
    (runOps ops).activeBacking.length ≤ 1 ∧
    (runOps ops).activeVocal.length ≤ 1 := by
  obtain ⟨hb, hv, -, -⟩ := engineInv_runOps ops
  rw [hb, hv]
  constructor <;> cases h : (runOps ops).backingSource <;>
    cases h2 : (runOps ops).vocalSource <;> simp

/-- C9: stop is idempotent and defensive: stopping twice equals stopping
once, stopping with no active source reference is a no-op (no error), and
after any stop the graph holds zero live SourceHandles. -/
theorem stop_idempotent_defensive (s : AudioEngine) (h : engineInv s) :
    s.stop.stop = s.stop ∧
    (s.backingSource = none → s.vocalSource = none → s.stop = s) ∧
    s.stop.activeBacking = [] ∧ s.stop.activeVocal = [] := by
  obtain ⟨hab, hav⟩ := stop_active h
  refine ⟨?_, ?_, hab, hav⟩
  · rcases s with ⟨bb, vb, bs, vs, ab, av, n, au⟩
    simp [AudioEngine.stop, stopSlot]
  · intro hbs hvs
    rcases s with ⟨bb, vb, bs, vs, ab, av, n, au⟩
    simp only at hbs hvs
    subst hbs; subst hvs
    simp [AudioEngine.stop, stopSlot]

theorem stop_idempotent_defensive_witness :
    engineInv ⟨some 10, none, some ⟨0, 0, 0⟩, none, [⟨0, 0, 0⟩], [], 1, none⟩ ∧
    (AudioEngine.stop ⟨some 10, none, some ⟨0, 0, 0⟩, none, [⟨0, 0, 0⟩], [], 1, none⟩).activeBacking = [] ∧
    AudioEngine.stop (AudioEngine.stop ⟨some 10, none, some ⟨0, 0, 0⟩, none, [⟨0, 0, 0⟩], [], 1, none⟩)
      = AudioEngine.stop ⟨some 10, none, some ⟨0, 0, 0⟩, none, [⟨0, 0, 0⟩], [], 1, none⟩ :=
  ⟨by decide,
   (stop_idempotent_defensive _ (by decide)).2.2.1,
   (stop_idempotent_defensive _ (by decide)).1⟩

/-- C10: when both buffers are loaded, play creates one source per slot,
both scheduled at the same engine-clock instant now and the same offset
into their assets (mutually aligned start); when a buffer is missing, that
slot gets no source and is left exactly as the initial teardown left it
(the slot branch is a no-op). -/
theorem play_aligned_sources (s : AudioEngine) (now off : ℚ) (fx : AudioEffects) :
    (s.backingBuffer.isSome = true → s.vocalBuffer.isSome = true →
      ∃ hb hv : SourceHandle,
        (s.play now off fx).backingSource = some hb ∧
        (s.play now off fx).vocalSource = some hv ∧
        hb.startTime = now ∧ hv.startTime = now ∧
        hb.offset = off ∧ hv.offset = off) ∧
    (s.vocalBuffer = none →
      (s.play now off fx).vocalSource = none ∧
      (s.play now off fx).activeVocal = s.stop.activeVocal) ∧
    (s.backingBuffer = none →
      (s.play now off fx).backingSource = none ∧
      (s.play now off fx).activeBacking = s.stop.activeBacking) := by
  rcases s with ⟨bb, vb, bs, vs, ab, av, n, au⟩
  refine ⟨?_, ?_, ?_⟩ <;>
    cases bb <;> cases vb <;>
      simp_all [AudioEngine.play, AudioEngine.stop]

theorem play_aligned_sources_witness :
    ∃ hb hv : SourceHandle,
      (AudioEngine.play ⟨some 10, some 8, none, none, [], [], 0, none⟩ 7 2 ⟨1, 0, 0, 0, 0⟩).backingSource = some hb ∧
      (AudioEngine.play ⟨some 10, some 8, none, none, [], [], 0, none⟩ 7 2 ⟨1, 0, 0, 0, 0⟩).vocalSource = some hv ∧
      hb.startTime = 7 ∧ hv.startTime = 7 ∧ hb.offset = 2 ∧ hv.offset = 2 :=
  (play_aligned_sources ⟨some 10, some 8, none, none, [], [], 0, none⟩ 7 2 ⟨1, 0, 0, 0, 0⟩).1
    (by decide) (by decide)

/-! ### Helper lemmas about the tick loop and play -/

lemma loop_not_playing {m : AppModel} (h : m.isPlaying = false) (now : ℚ) :
    loop m now = m := by
  unfold loop
  rw [if_neg (by simp [h])]

lemma loop_running {m : AppModel} (now : ℚ) (hp : m.isPlaying = true)
    (hlt : now - m.startTimeRef < m.duration) :
    loop m now = { m with currentTime := now - m.startTimeRef, rafPending := true } := by
  unfold loop
  rw [if_pos hp, if_neg (not_le.mpr hlt)]

lemma loop_finished {m : AppModel} (now : ℚ) (hp : m.isPlaying = true)
    (hge : m.duration ≤ now - m.startTimeRef) :
    loop m now = { m with isPlaying := false, currentTime := m.duration,
                          engine := m.engine.stop, rafPending := false } := by
  unfold loop
  rw [if_pos hp, if_pos hge]

lemma play_active_mem {s : AudioEngine} (hinv : engineInv s) (now off : ℚ)
    (fx : AudioEffects) :
    (∀ h ∈ (s.play now off fx).activeBacking, h.startTime = now ∧ h.offset = off) ∧
    (∀ h ∈ (s.play now off fx).activeVocal, h.startTime = now ∧ h.offset = off) := by
  obtain ⟨hab, hav⟩ := stop_active hinv
  rcases s with ⟨bb, vb, bs, vs, ab, av, n, au⟩
  simp only [AudioEngine.stop] at hab hav
  cases bb <;> cases vb <;> simp_all [AudioEngine.play, AudioEngine.stop]

lemma play_backing_some {s : AudioEngine} (now off : ℚ) (fx : AudioEffects)
    (h : s.backingBuffer.isSome = true) :
    (s.play now off fx).backingSource.isSome = true := by
  rcases s with ⟨bb, vb, bs, vs, ab, av, n, au⟩
  cases bb <;> cases vb <;> simp_all [AudioEngine.play, AudioEngine.stop]

/-- A concrete App state used by the concrete instantiations below: a 10 s
backing track loaded, reviewing, transport idle at position 0. -/
def sampleApp : AppModel :=
  { appState := AppState.REVIEW
    effects := ⟨1, 0, 0, 0, 1/10⟩
    duration := 10
    currentTime := 0
    isPlaying := false
    startTimeRef := 0
    rafPending := false
    engine := { AudioEngine.init with backingBuffer := some 10 }
    canvasAvailable := true
    sinkConnected := false
    recorderActive := false
    recordersCreated := 0
    artifactFinalized := false
    pendingAutoStop := none }

/-- C2: for every project time t in [0, duration], handleSeek(t) followed
immediately by reading currentTime returns t exactly; while playing, the
reference start clock is rescheduled with the begin formula
startTimeRef = now - t, the engine sources are restarted (stop-then-start)
at offset t and clock instant now, and the next tick at now + d reports
t + d, not d alone. -/
theorem seek_position_reschedule (m : AppModel) (now t : ℚ)
    (ht0 : 0 ≤ t) (htd : t ≤ m.duration) (hinv : engineInv m.engine) :
    (handleSeek m now t).currentTime = t ∧
    (m.isPlaying = true →
      (handleSeek m now t).startTimeRef = referenceStart now t ∧
      (handleSeek m now t).startTimeRef = now - t ∧
      (∀ h ∈ (handleSeek m now t).engine.activeBacking,
        h.startTime = now ∧ h.offset = t) ∧
      (∀ h ∈ (handleSeek m now t).engine.activeVocal,
        h.startTime = now ∧ h.offset = t) ∧
      (m.engine.backingBuffer.isSome = true →
        (handleSeek m now t).engine.backingSource.isSome = true) ∧
      (∀ d : ℚ, 0 < d → t + d < m.duration →
        (loop (handleSeek m now t) (now + d)).currentTime = t + d)) := by
  have hseekP : m.isPlaying = true →
      handleSeek m now t =
        { m with currentTime := t,
                 engine := m.engine.play now t m.effects,
                 startTimeRef := referenceStart now t } := by
    intro hp
    unfold handleSeek
    rw [if_pos hp]
  constructor
  · cases hp : m.isPlaying with
    | true => rw [hseekP hp]
    | false =>
      unfold handleSeek
      rw [if_neg (by simp [hp])]
  · intro hp
    rw [hseekP hp]
    obtain ⟨hmb, hmv⟩ := play_active_mem hinv now t m.effects
    refine ⟨rfl, rfl, hmb, hmv, ?_, ?_⟩
    · intro hb
      exact play_backing_some now t m.effects hb
    · intro d hd hlt
      rw [loop_running
            (m := { m with currentTime := t,
                           engine := m.engine.play now t m.effects,
                           startTimeRef := referenceStart now t })
            (now + d) hp
            (by show now + d - referenceStart now t < m.duration
                simp only [referenceStart]
                linarith)]
      show now + d - referenceStart now t = t + d
      simp only [referenceStart]
      ring

theorem seek_position_reschedule_witness :
    (handleSeek { sampleApp with isPlaying := true } 100 5).currentTime = 5 ∧
    (loop (handleSeek { sampleApp with isPlaying := true } 100 5) (100 + 1)).currentTime = 5 + 1 := by
  have h := seek_position_reschedule { sampleApp with isPlaying := true } 100 5
    (by norm_num) (by norm_num [sampleApp]) (by decide)
  exact ⟨h.1, (h.2 rfl).2.2.2.2.2 1 (by norm_num) (by norm_num [sampleApp])⟩

/-- C3: while playing, a tick computes elapsed = now - startTimeRef; when
elapsed has reached duration it stops the transport (isPlaying false,
engine sources stopped), clamps currentTime to exactly duration and cancels
rescheduling, after which any further tick is a no-op; otherwise it reports
elapsed as currentTime and reschedules itself, and two successive running
ticks at strictly increasing clock instants report strictly increasing
positions. -/
theorem tick_clamps_and_stops (m : AppModel) (now now2 : ℚ)
    (hp : m.isPlaying = true) :
    (m.duration ≤ now - m.startTimeRef →
      (loop m now).isPlaying = false ∧
      (loop m now).currentTime = m.duration ∧
      (loop m now).engine = m.engine.stop ∧
      (loop m now).rafPending = false ∧
      loop (loop m now) now2 = loop m now) ∧
    (now - m.startTimeRef < m.duration →
      (loop m now).currentTime = now - m.startTimeRef ∧
      (loop m now).isPlaying = true ∧
      (loop m now).rafPending = true ∧
      (now < now2 → now2 - m.startTimeRef < m.duration →
        (loop m now).currentTime < (loop (loop m now) now2).currentTime)) := by
  constructor
  · intro hge
    rw [loop_finished now hp hge]
    refine ⟨rfl, rfl, rfl, rfl, ?_⟩
    exact loop_not_playing rfl now2
  · intro hlt
    rw [loop_running now hp hlt]
    refine ⟨rfl, hp, rfl, ?_⟩
    intro hnn hlt2
    rw [loop_running
          (m := { m with currentTime := now - m.startTimeRef, rafPending := true })
          now2 hp hlt2]
    show now - m.startTimeRef < now2 - m.startTimeRef
    linarith

theorem tick_clamps_and_stops_witness :
    (loop { sampleApp with isPlaying := true, startTimeRef := 90 } 95).currentTime = 95 - 90 ∧
    (loop { sampleApp with isPlaying := true, startTimeRef := 90 } 101).isPlaying = false ∧
    (loop { sampleApp with isPlaying := true, startTimeRef := 90 } 101).currentTime = 10 := by
  have h := tick_clamps_and_stops { sampleApp with isPlaying := true, startTimeRef := 90 } 95 96 rfl
  have h2 := tick_clamps_and_stops { sampleApp with isPlaying := true, startTimeRef := 90 } 101 102 rfl
  refine ⟨(h.2 (by norm_num [sampleApp])).1, ?_, ?_⟩
  · exact (h2.1 (by norm_num [sampleApp])).1
  · exact (h2.1 (by norm_num [sampleApp])).2.1

lemma togglePlayback_sink (m : AppModel) (now : ℚ) :
    (togglePlayback m now).sinkConnected = m.sinkConnected := by
  unfold togglePlayback
  split <;> rfl

/-- C5: an export run schedules its automatic stop at duration + 0.5 s of
wall time; when the auto-stop fires, the capture sink is disconnected from
the master bus, the encoded artifact is finalized, the state returns to
REVIEW, and subsequent normal playback leaves the sink disconnected (no
further writes to it). -/
theorem export_autostop_disconnects_sink (m : AppModel) (now : ℚ)
    (hstate : m.appState = AppState.REVIEW) (hcv : m.canvasAvailable = true) :
    (handleDownload m now).pendingAutoStop = some (m.duration + 1/2) ∧
    (autoStopTimeout (handleDownload m now)).sinkConnected = false ∧
    (autoStopTimeout (handleDownload m now)).artifactFinalized = true ∧
    (autoStopTimeout (handleDownload m now)).appState = AppState.REVIEW ∧
    (∀ now2 : ℚ,
      (togglePlayback (autoStopTimeout (handleDownload m now)) now2).sinkConnected = false) := by
  have hd : handleDownload m now =
      { m with appState := AppState.EXPORTING,
               sinkConnected := true,
               recorderActive := true,
               recordersCreated := m.recordersCreated + 1,
               engine := (m.engine.stop).play now 0 m.effects,
               startTimeRef := referenceStart now 0,
               isPlaying := true,
               rafPending := true,
               pendingAutoStop := some (m.duration + 1/2) } := by
    unfold handleDownload
    rw [if_pos hcv]
  rw [hd]
  refine ⟨rfl, rfl, rfl, rfl, ?_⟩
  intro now2
  rw [togglePlayback_sink]
  rfl

theorem export_autostop_disconnects_sink_witness :
    (handleDownload sampleApp 0).pendingAutoStop = some (10 + 1/2) ∧
    (autoStopTimeout (handleDownload sampleApp 0)).sinkConnected = false ∧
    (autoStopTimeout (handleDownload sampleApp 0)).appState = AppState.REVIEW := by
  have h := export_autostop_disconnects_sink sampleApp 0 rfl rfl
  exact ⟨h.1, h.2.1, h.2.2.2.1⟩

/-- C6: with no canvas in the document when an export is requested, the
early return means no sink is connected, no recorder is created and no
playback begins - but the appState was already set to EXPORTING before the
check, so the state is left as EXPORTING, not REVIEW as specified; here the
model is evaluated at that failing input. -/
theorem export_no_canvas_leaves_exporting :
    sampleApp.appState = AppState.REVIEW ∧
    (handleDownload { sampleApp with canvasAvailable := false } 0).appState = AppState.EXPORTING ∧
    (handleDownload { sampleApp with canvasAvailable := false } 0).recorderActive = false ∧
    (handleDownload { sampleApp with canvasAvailable := false } 0).recordersCreated = 0 ∧
    (handleDownload { sampleApp with canvasAvailable := false } 0).sinkConnected = false ∧
    (handleDownload { sampleApp with canvasAvailable := false } 0).isPlaying = false := by
  decide

/-- C7 counterexample: requesting an export while one is already active is
not rejected and does change state: at this concrete exporting state a
second handleDownload creates a second recorder, restarts playback from 0
and reschedules the auto-stop, so the claimed synchronous ResourceBusy
rejection with no state change is refuted. -/
theorem export_busy_not_rejected_cex :
    (handleDownload { sampleApp with
      appState := AppState.EXPORTING, isPlaying := true, recorderActive := true,
      sinkConnected := true, recordersCreated := 1, startTimeRef := 0,
      pendingAutoStop := some (21/2) } 5).recordersCreated = 2 ∧
    ({ sampleApp with
      appState := AppState.EXPORTING, isPlaying := true, recorderActive := true,
      sinkConnected := true, recordersCreated := 1, startTimeRef := 0,
      pendingAutoStop := some (21/2) } : AppModel).recordersCreated = 1 ∧
    handleDownload { sampleApp with
      appState := AppState.EXPORTING, isPlaying := true, recorderActive := true,
      sinkConnected := true, recordersCreated := 1, startTimeRef := 0,
      pendingAutoStop := some (21/2) } 5
      ≠ { sampleApp with
      appState := AppState.EXPORTING, isPlaying := true, recorderActive := true,
      sinkConnected := true, recordersCreated := 1, startTimeRef := 0,
      pendingAutoStop := some (21/2) } := by
  refine ⟨rfl, rfl, ?_⟩
  intro h
  have h2 := congrArg AppModel.recordersCreated h
  exact absurd h2 (by decide)

/-- C7 amended: handleDownload has no busy guard: requesting an export while
one is already active proceeds instead of being rejected - it tears down
current playback, creates a second recorder, restarts export playback from
project time 0 and reschedules the auto-stop; re-entrancy is prevented only
by the UI hiding the export control while EXPORTING. -/
theorem export_busy_proceeds (m : AppModel) (now : ℚ)
    (hstate : m.appState = AppState.EXPORTING) (hcv : m.canvasAvailable = true)
    (hrec : m.recorderActive = true) :
    (handleDownload m now).recordersCreated = m.recordersCreated + 1 ∧
    (handleDownload m now).appState = AppState.EXPORTING ∧
    (handleDownload m now).startTimeRef = referenceStart now 0 ∧
    (handleDownload m now).pendingAutoStop = some (m.duration + 1/2) ∧
    (handleDownload m now).engine = (m.engine.stop).play now 0 m.effects := by
  have hd : handleDownload m now =
      { m with appState := AppState.EXPORTING,
               sinkConnected := true,
               recorderActive := true,
               recordersCreated := m.recordersCreated + 1,
               engine := (m.engine.stop).play now 0 m.effects,
               startTimeRef := referenceStart now 0,
               isPlaying := true,
               rafPending := true,
               pendingAutoStop := some (m.duration + 1/2) } := by
    unfold handleDownload
    rw [if_pos hcv]
  rw [hd]
  exact ⟨rfl, rfl, rfl, rfl, rfl⟩

theorem export_busy_proceeds_witness :
    (handleDownload { sampleApp with
      appState := AppState.EXPORTING, isPlaying := true, recorderActive := true,
      sinkConnected := true, recordersCreated := 1 } 5).recordersCreated = 1 + 1 ∧
    (handleDownload { sampleApp with
      appState := AppState.EXPORTING, isPlaying := true, recorderActive := true,
      sinkConnected := true, recordersCreated := 1 } 5).appState = AppState.EXPORTING := by
  have h := export_busy_proceeds { sampleApp with
    appState := AppState.EXPORTING, isPlaying := true, recorderActive := true,
    sinkConnected := true, recordersCreated := 1 } 5 rfl rfl rfl
  exact ⟨h.1, h.2.1⟩

/-- The generated impulse-response buffer: channel count, sample count,
context sample rate, and the two channels as sample index to value. -/
structure ReverbImpulse where
  numberOfChannels : ℕ
  length : ℕ
  sampleRate : ℕ
  left : ℕ → ℚ
  right : ℕ → ℚ

/-- The float value rate * 2.5 that createReverbImpulse uses both as the
createBuffer sample count and as the envelope denominator,
src/unnamed/part_001 line 189. -/
def impulseLengthQ (rate : ℕ) : ℚ := (rate : ℚ) * (5/2)

/-- The envelope e = (1 - n/length)^decay with decay = 2.0,
src/unnamed/part_001 lines 190 and 196-197. -/
def impulseEnvelope (len : ℚ) (i : ℕ) : ℚ := (1 - (i : ℚ) / len)^2

/-- AudioEngine.createReverbImpulse, src/unnamed/part_001 lines 187-202:
creates a 2-channel buffer of rate * 2.5 samples (WebIDL converts the float
sample count to an integer by truncation) at the context sample rate;
sample i of each channel is an independent Math.random draw scaled to
random*2 - 1 and multiplied by the envelope.  randL and randR are the two
per-channel random streams, each valued in [0, 1). -/
def createReverbImpulse (rate : ℕ) (randL randR : ℕ → ℚ) : ReverbImpulse :=
  let len := impulseLengthQ rate
  { numberOfChannels := 2
    length := (⌊len⌋).toNat
    sampleRate := rate
    left := fun i => (randL i * 2 - 1) * impulseEnvelope len i
    right := fun i => (randR i * 2 - 1) * impulseEnvelope len i }

/-- C8 counterexample: at the standard odd sample rate 11025 Hz the
generated buffer holds the truncated sample count floor(11025 * 2.5) =
27562, while round(11025 * 2.5) = 27563, so the claimed length
round(sampleRate * 2.5) fails against the code at this concrete input. -/
theorem reverb_impulse_length_cex :
    ((createReverbImpulse 11025 (fun _ => 1/2) (fun _ => 1/2)).length : ℤ) = 27562 ∧
    round ((11025 : ℚ) * (5/2)) = 27563 ∧
    ((createReverbImpulse 11025 (fun _ => 1/2) (fun _ => 1/2)).length : ℤ)
      ≠ round ((11025 : ℚ) * (5/2)) := by
  have h1 : ⌊((11025 : ℕ) : ℚ) * (5/2)⌋ = (27562 : ℤ) := by
    rw [Int.floor_eq_iff]
    constructor <;> norm_num
  have h2 : round ((11025 : ℚ) * (5/2)) = 27563 := by
    have hcast : (11025 : ℚ) * (5/2) + 1/2 = ((27563 : ℤ) : ℚ) := by norm_num
    rw [round_eq, hcast, Int.floor_intCast]
  have hlen : ((createReverbImpulse 11025 (fun _ => 1/2) (fun _ => 1/2)).length : ℤ) = 27562 := by
    show ((⌊impulseLengthQ 11025⌋).toNat : ℤ) = 27562
    unfold impulseLengthQ
    rw [h1]
    norm_num
  refine ⟨hlen, h2, ?_⟩
  rw [hlen, h2]
  norm_num

/-- C8 (amended): the generated reverb impulse is a stereo 2-channel buffer
whose sample count is the truncated floor(sampleRate * 2.5) - equal to
round(sampleRate * 2.5) exactly when the sample rate is even; sample i of
each channel equals that channel's own uniform draw scaled to [-1, 1)
times the envelope (1 - i/L)^2; the envelope is monotonically
non-increasing over the buffer and bounds each sample's magnitude. -/
theorem reverb_impulse_shape (rate : ℕ) (randL randR : ℕ → ℚ)
    (hrate : 0 < rate)
    (hL : ∀ i, 0 ≤ randL i ∧ randL i < 1)
    (hR : ∀ i, 0 ≤ randR i ∧ randR i < 1) :
    (createReverbImpulse rate randL randR).numberOfChannels = 2 ∧
    ((createReverbImpulse rate randL randR).length : ℤ) = ⌊(rate : ℚ) * (5/2)⌋ ∧
    (2 ∣ rate →
      ((createReverbImpulse rate randL randR).length : ℤ) = round ((rate : ℚ) * (5/2))) ∧
    (∀ i, (createReverbImpulse rate randL randR).left i
        = (randL i * 2 - 1) * impulseEnvelope (impulseLengthQ rate) i) ∧
    (∀ i, (createReverbImpulse rate randL randR).right i
        = (randR i * 2 - 1) * impulseEnvelope (impulseLengthQ rate) i) ∧
    (∀ i j : ℕ, i ≤ j → (j : ℚ) ≤ impulseLengthQ rate →
      impulseEnvelope (impulseLengthQ rate) j ≤ impulseEnvelope (impulseLengthQ rate) i) ∧
    (∀ i : ℕ,
      |(createReverbImpulse rate randL randR).left i|
          ≤ impulseEnvelope (impulseLengthQ rate) i ∧
      |(createReverbImpulse rate randL randR).right i|
          ≤ impulseEnvelope (impulseLengthQ rate) i) := by
  have hlen : (0 : ℚ) < impulseLengthQ rate := by
    unfold impulseLengthQ
    have : (0 : ℚ) < (rate : ℚ) := by exact_mod_cast hrate
    linarith
  refine ⟨rfl, ?_, ?_, fun i => rfl, fun i => rfl, ?_, ?_⟩
  · show ((⌊impulseLengthQ rate⌋).toNat : ℤ) = ⌊(rate : ℚ) * (5/2)⌋
    unfold impulseLengthQ
    exact Int.toNat_of_nonneg (Int.floor_nonneg.mpr (by positivity))
  · rintro ⟨k, hk⟩
    subst hk
    have h5 : ((2 * k : ℕ) : ℚ) * (5/2) = ((5 * (k : ℤ) : ℤ) : ℚ) := by
      push_cast
      ring
    show ((⌊impulseLengthQ (2 * k)⌋).toNat : ℤ) = round (((2 * k : ℕ) : ℚ) * (5/2))
    unfold impulseLengthQ
    rw [h5, Int.floor_intCast, round_intCast, Int.toNat_of_nonneg (by positivity)]
  · intro i j hij hjlen
    unfold impulseEnvelope
    have hdiv : (i : ℚ) / impulseLengthQ rate ≤ (j : ℚ) / impulseLengthQ rate :=
      (div_le_div_right hlen).mpr (by exact_mod_cast hij)
    have hj1 : (j : ℚ) / impulseLengthQ rate ≤ 1 := (div_le_one hlen).mpr hjlen
    exact pow_le_pow_left (by linarith) (by linarith) 2
  · intro i
    have henv : 0 ≤ impulseEnvelope (impulseLengthQ rate) i := by
      unfold impulseEnvelope
      positivity
    constructor
    · show |(randL i * 2 - 1) * impulseEnvelope (impulseLengthQ rate) i|
          ≤ impulseEnvelope (impulseLengthQ rate) i
      rw [abs_mul, abs_of_nonneg henv]
      have hb := hL i
      have habs : |randL i * 2 - 1| ≤ 1 := abs_le.mpr ⟨by linarith [hb.1], by linarith [hb.2]⟩
      calc |randL i * 2 - 1| * impulseEnvelope (impulseLengthQ rate) i
          ≤ 1 * impulseEnvelope (impulseLengthQ rate) i :=
            mul_le_mul_of_nonneg_right habs henv
        _ = impulseEnvelope (impulseLengthQ rate) i := one_mul _
    · show |(randR i * 2 - 1) * impulseEnvelope (impulseLengthQ rate) i|
          ≤ impulseEnvelope (impulseLengthQ rate) i
      rw [abs_mul, abs_of_nonneg henv]
      have hb := hR i
      have habs : |randR i * 2 - 1| ≤ 1 := abs_le.mpr ⟨by linarith [hb.1], by linarith [hb.2]⟩
      calc |randR i * 2 - 1| * impulseEnvelope (impulseLengthQ rate) i
          ≤ 1 * impulseEnvelope (impulseLengthQ rate) i :=
            mul_le_mul_of_nonneg_right habs henv
        _ = impulseEnvelope (impulseLengthQ rate) i := one_mul _

theorem reverb_impulse_shape_witness :
    (createReverbImpulse 4 (fun _ => 1/2) (fun _ => 1/2)).numberOfChannels = 2 ∧
    ((createReverbImpulse 4 (fun _ => 1/2) (fun _ => 1/2)).length : ℤ)
        = ⌊(4 : ℚ) * (5/2)⌋ ∧
    ((createReverbImpulse 4 (fun _ => 1/2) (fun _ => 1/2)).length : ℤ)
        = round ((4 : ℚ) * (5/2)) := by
  have h := reverb_impulse_shape 4 (fun _ => 1/2) (fun _ => 1/2) (by norm_num)
    (fun i => by norm_num) (fun i => by norm_num)
  exact ⟨h.1, h.2.1, h.2.2.1 ⟨2, rfl⟩⟩
